import Mathlib

/-
Verification development for the financial-statement table extraction core
(edgar_utils.py and src/extraction/table_parser.py of the repository).

The embedding works over a textual data model:
  * a cell of a pandas DataFrame is `Option String`: `none` models a missing
    value (NaN); `some s` models a string (object dtype) cell.  Note that in
    pandas an empty string cell is NOT missing: `notna` is true for it.
  * a DataFrame is a header list plus a list of rows of cells.
  * scores are rational numbers (the source computes the same expressions
    with Python floats; the coefficients 0.4/0.1 and the 0.3 threshold are
    embedded exactly as rationals).
  * Python string helpers (strip, lower, substring search, char membership)
    are re-implemented on `List Char` so that everything evaluates inside
    the kernel.
  * raised exceptions are modelled with `Except String`.
-/

namespace SecExtract

/-- A pandas cell: `none` is NaN/missing, `some s` is a string cell. -/
abbrev Cell := Option String

/-- A pandas DataFrame: column labels plus rows of cells. -/
structure DF where
  headers : List String
  rows : List (List Cell)
deriving DecidableEq

/-- Python `str(x)` applied to a cell by `Series.astype(str)`: NaN renders as
the string "nan". -/
def cellPyStr : Cell → String
  | some s => s
  | none => "nan"

/-- The string content of a cell, with missing read as "": this is what
`str(col1) if pd.notna(col1) else ""` computes in `_consolidate_headers`. -/
def cellStrOrEmpty : Cell → String
  | some s => s
  | none => ""

/-- pandas `DataFrame.empty`: true when there are no rows or no columns. -/
def dfEmpty (df : DF) : Bool := df.rows.isEmpty || df.headers.isEmpty

/-- The Python whitespace characters recognised by `str.strip` / `\s`. -/
def pyWs (c : Char) : Bool :=
  c == ' ' || c == '\t' || c == '\n' || c == '\r' || c == '\x0b' || c == '\x0c'

/-- Python `str.strip()`. -/
def pyStrip (s : String) : String :=
  String.mk (((s.toList.dropWhile pyWs).reverse.dropWhile pyWs).reverse)

/-- Python `str.lower()` (ASCII letters; other characters are unchanged). -/
def strLower (s : String) : String := String.mk (s.toList.map Char.toLower)

/-- Python `c in s` for a single character. -/
def strContainsChar (s : String) (c : Char) : Bool :=
  s.toList.any (fun x => x == c)

/-- Python substring test `needle in haystack` on character lists. -/
def strIn (needle : List Char) : List Char → Bool
  | [] => needle.isEmpty
  | c :: rest => needle.isPrefixOf (c :: rest) || strIn needle rest

/-- Python substring test on strings. -/
def pyIn (needle haystack : String) : Bool := strIn needle.toList haystack.toList

/-- Python `str.find`: index of the first occurrence, `none` when absent. -/
def findIdx (needle : List Char) : List Char → Option Nat
  | [] => if needle.isEmpty then some 0 else none
  | c :: rest =>
    if needle.isPrefixOf (c :: rest) then some 0
    else (findIdx needle rest).map (fun n => n + 1)

/-- Python single-character `str.replace`. -/
def replaceChar (a b : Char) (s : String) : String :=
  String.mk (s.toList.map (fun c => if c == a then b else c))

/-- Joining strings with a single blank, as `" ".join(...)`. -/
def joinSpace : List String → String
  | [] => ""
  | [s] => s
  | s :: rest => s ++ " " ++ joinSpace rest

/-! ## Relevance scoring (`_score_table_relevance`, table_parser.py lines 133-170) -/

/-- A digit or a thousands separator, the character class of `[\d,]`. -/
def isDigitComma (c : Char) : Bool := c.isDigit || c == ','

/-- Scanner for the tail of the regex alternative `\([\d,]+\)`: after the
first digit/comma, keep consuming digits/commas until the closing paren. -/
def parenNumTail : List Char → Bool
  | [] => false
  | c :: rest => if c == ')' then true else isDigitComma c && parenNumTail rest

/-- Does the pattern `\$[\d,]+|\([\d,]+\)` match at the start of the list? -/
def moneyAt : List Char → Bool
  | '$' :: c :: _ => isDigitComma c
  | '(' :: c :: rest => isDigitComma c && parenNumTail rest
  | _ => false

/-- `re.search(r"\$[\d,]+|\([\d,]+\)", text)`: the money pattern occurs
somewhere in the text. -/
def hasMoneyPattern : List Char → Bool
  | [] => false
  | c :: rest => moneyAt (c :: rest) || hasMoneyPattern rest

/-- Does the pattern `20\d{2}` match at the start of the list? -/
def yearAt : List Char → Bool
  | '2' :: '0' :: c :: d :: _ => c.isDigit && d.isDigit
  | _ => false

/-- `re.search(r"20\d{2}", text)`: a plausible fiscal year occurs somewhere. -/
def hasYearPattern : List Char → Bool
  | [] => false
  | c :: rest => yearAt (c :: rest) || hasYearPattern rest

/-- `_score_table_relevance(context, table, keywords)`: keyword hits in the
surrounding context and in the table text (each keyword counted at most
once), plus money and year pattern indicators, weighted 0.4/0.4/0.1/0.1 and
normalized by the number of keywords. -/
def scoreTableRelevance (context tableText : String) (keywords : List String) : ℚ :=
  let contextLower := strLower context
  let tableLower := strLower tableText
  let contextScore : ℚ := (keywords.countP (fun k => pyIn k contextLower) : ℚ)
  let tableScore : ℚ := (keywords.countP (fun k => pyIn k tableLower) : ℚ)
  let hasMoney : ℚ := if hasMoneyPattern tableLower.toList then 1 else 0
  let hasYears : ℚ := if hasYearPattern tableLower.toList then 1 else 0
  let score := contextScore * (4/10) + tableScore * (4/10)
      + hasMoney * (1/10) + hasYears * (1/10)
  score / (keywords.length : ℚ)

/-! ## Table selection loop (`_parse_financial_tables`, table_parser.py lines 75-95) -/

/-- One iteration of the selection loop: update the best table when the
score strictly improves the current best and strictly exceeds 0.3. -/
def selectStep {α : Type} (score : α → ℚ) (acc : Option α × ℚ) (t : α) :
    Option α × ℚ :=
  let s := score t
  if acc.2 < s ∧ 3/10 < s then (some t, s) else acc

/-- The per-category selection loop, starting from no table and best score 0. -/
def selectBestTable {α : Type} (score : α → ℚ) (tables : List α) : Option α :=
  (tables.foldl (selectStep score) ((none : Option α), (0 : ℚ))).1

/-- The statement categories, in the iteration order of the source dict. -/
def financialCategories : List String :=
  ["income_statement", "balance_sheet", "cash_flow"]

/-- The per-category outcome inside `_parse_financial_tables`: select the
best table; when one is selected, run extraction (which may raise); an
empty extracted DataFrame is dropped (only `if not df.empty` stores it). -/
def categoryResultE {α : Type} (tables : List α) (score : α → ℚ)
    (extract : α → Except String DF) : Except String (Option DF) :=
  match selectBestTable score tables with
  | none => Except.ok none
  | some t =>
    (extract t).map (fun df => if dfEmpty df then none else some df)

/-- The category loop of `_parse_financial_tables`, building the results
dict (as an association list in insertion order); an exception raised for
one category aborts the whole loop, as in the source. -/
def parseCats {α : Type} (tables : List α) (scoreOf : String → α → ℚ)
    (extract : α → Except String DF) :
    List String → List (String × DF) → Except String (List (String × DF))
  | [], acc => Except.ok acc
  | cat :: cats, acc =>
    match categoryResultE tables (scoreOf cat) extract with
    | Except.error e => Except.error e
    | Except.ok none => parseCats tables scoreOf extract cats acc
    | Except.ok (some df) => parseCats tables scoreOf extract cats (acc ++ [(cat, df)])

/-- `parse_financial_tables` (table_parser.py lines 25-38): the public entry
point wraps document parsing and the category loop in a try/except and
returns the empty dict on any exception.  `parsed` is the outcome of
parsing the HTML into the list of table elements. -/
def parse_financial_tables {α : Type} (parsed : Except String (List α))
    (scoreOf : String → α → ℚ) (extract : α → Except String DF) :
    List (String × DF) :=
  match parsed.bind (fun tables => parseCats tables scoreOf extract financialCategories []) with
  | Except.ok r => r
  | Except.error _ => []

/-! ## Context window (`_get_table_context`, table_parser.py lines 99-131) -/

/-- `_get_table_context`: locate the serialized table inside the serialized
document; when absent return the empty string; otherwise cut a window of
`contextChars` characters on both sides, convert it to text through the
HTML text extractor `getText` (BeautifulSoup `get_text`, an external
collaborator, passed as a function) and lowercase it. -/
def getTableContext (getText : String → String) (tableHtml docHtml : String)
    (contextChars : Nat) : String :=
  match findIdx tableHtml.toList docHtml.toList with
  | none => ""
  | some pos =>
    let docLen := docHtml.toList.length
    let start := pos - contextChars
    let stop := min docLen (pos + tableHtml.toList.length + contextChars)
    strLower (getText (String.mk ((docHtml.toList.drop start).take (stop - start))))

/-! ## DataFrame cleaning pipeline (edgar_utils.py lines 262-505) -/

/-- Count of non-NA cells in a row: `row.notna().sum()`. -/
def notnaCount (r : List Cell) : Nat := r.countP (fun c => c.isSome)

/-- Count of cells whose text is a non-empty string (the vocabulary of the
spec; note the source counts `notna` cells instead). -/
def nonEmptyCellCount (r : List Cell) : Nat :=
  r.countP (fun c => !(cellStrOrEmpty c == ""))

/-- Is every cell of the row missing? -/
def rowAllNa (r : List Cell) : Bool := r.all (fun c => c.isNone)

/-- `df.dropna(how="all")`: drop rows whose cells are all missing. -/
def dropNaRowsAll (rows : List (List Cell)) : List (List Cell) :=
  rows.filter (fun r => !(rowAllNa r))

/-- Is column `j` missing in every row? -/
def colAllNa (rows : List (List Cell)) (j : Nat) : Bool :=
  rows.all (fun r => ((r.get? j).getD none).isNone)

/-- Keep the entries at the positions accepted by `keep`, starting at `i`. -/
def keepIdxGo {β : Type} (keep : Nat → Bool) : Nat → List β → List β
  | _, [] => []
  | i, x :: xs =>
    if keep i then x :: keepIdxGo keep (i + 1) xs else keepIdxGo keep (i + 1) xs

/-- Keep the entries at the positions accepted by `keep`. -/
def keepIdx {β : Type} (keep : Nat → Bool) (l : List β) : List β :=
  keepIdxGo keep 0 l

/-- `df.dropna(axis=1, how="all")`: drop columns whose cells are all
missing (for a DataFrame with at least one row). -/
def dropNaCols (df : DF) : DF :=
  let keep := fun j => !(colAllNa df.rows j)
  ⟨keepIdx keep df.headers, df.rows.map (keepIdx keep)⟩

/-- The per-column combination of the two header fragment rows in
`_consolidate_headers` (edgar_utils.py lines 316-332). -/
def combineHeaderCell (i : Nat) (c1 c2 : Cell) : String :=
  let s1 := pyStrip (cellStrOrEmpty c1)
  let s2 := pyStrip (cellStrOrEmpty c2)
  if s1 ≠ "" ∧ s2 ≠ "" ∧ s1 ≠ s2 then s1 ++ " " ++ s2
  else if s2 ≠ "" then s2
  else if s1 ≠ "" then s1
  else "Column_" ++ toString i

/-- `enumerate(zip(first_row, second_row))` mapped through the combiner. -/
def combineHeadersGo : Nat → List Cell → List Cell → List String
  | _, [], _ => []
  | _, _, [] => []
  | i, c1 :: r1, c2 :: r2 => combineHeaderCell i c1 c2 :: combineHeadersGo (i + 1) r1 r2

/-- The combined header row built from the first two data rows. -/
def combineHeaders (r1 r2 : List Cell) : List String := combineHeadersGo 0 r1 r2

/-- `_consolidate_headers` (edgar_utils.py lines 304-340): when the first
row has at most 2 non-NA cells and the second row has strictly more non-NA
cells, replace the header with the per-column combination of the two rows
and drop both rows from the body; otherwise leave the DataFrame unchanged. -/
def consolidateHeaders (df : DF) : DF :=
  match df.rows with
  | r1 :: r2 :: rest =>
    if notnaCount r1 ≤ 2 ∧ notnaCount r1 < notnaCount r2 then
      ⟨combineHeaders r1 r2, rest⟩
    else df
  | _ => df

/-- The column scan of `_remove_duplicate_columns` (edgar_utils.py lines
350-367).  On the first repetition of a stripped column name the source
evaluates `df[col].equals(df[seen_columns[col_str]])` where
`seen_columns[col_str]` is the stored integer counter (0): indexing a
string-labelled DataFrame by the integer label 0 raises KeyError, so the
scan aborts with an exception instead of reaching the drop/rename logic. -/
def dedupColsGo : List String → List String → List String →
    Except String (List String)
  | [], _, acc => Except.ok acc.reverse
  | c :: cs, seen, acc =>
    let s := pyStrip c
    if s ∈ seen then Except.error "KeyError"
    else dedupColsGo cs (s :: seen) (s :: acc)

/-- `_remove_duplicate_columns` (edgar_utils.py lines 342-378): scan the
column names (stripping each); a repeated name raises KeyError (see
`dedupColsGo`); otherwise the names are replaced by their stripped forms and
the filter on the `__REMOVE__` marker prefix is applied (it can only hit
pre-existing names, since the marker branch is unreachable).  The final
`~df.columns.duplicated()` filter is a no-op because the successful scan
guarantees distinct names. -/
def removeDuplicateColumns (df : DF) : Except String DF :=
  match dedupColsGo df.headers [] [] with
  | Except.error e => Except.error e
  | Except.ok hs =>
    let keep := fun j =>
      !("__REMOVE__".toList.isPrefixOf ((hs.get? j).getD "").toList)
    Except.ok ⟨keepIdx keep hs, df.rows.map (keepIdx keep)⟩

/-- Does `lit` followed by at least one digit match at the start of `l`?
This is the occurrence test for the regexes `Unnamed: \d+` and `level_\d+`. -/
def litNumAt (lit : List Char) (l : List Char) : Bool :=
  lit.isPrefixOf l &&
    (match l.drop lit.length with
     | c :: _ => c.isDigit
     | [] => false)

/-- The remainder of the list after consuming `lit` and the greedy digit run. -/
def afterLitNum (lit : List Char) (l : List Char) : List Char :=
  (l.drop lit.length).dropWhile Char.isDigit

/-- `re.sub(lit + r"\d+", "", l)` with structural fuel; every step of the
scan consumes at least one character, so fuel equal to the length of the
list is always sufficient. -/
def removeLitNumGo (lit : List Char) : Nat → List Char → List Char
  | 0, l => l
  | _ + 1, [] => []
  | fuel + 1, c :: rest =>
    if litNumAt lit (c :: rest) then removeLitNumGo lit fuel (afterLitNum lit (c :: rest))
    else c :: removeLitNumGo lit fuel rest

/-- `re.sub(lit + r"\d+", "", l)`: remove non-overlapping occurrences of the
literal followed by a greedy digit run, scanning left to right. -/
def removeLitNum (lit : List Char) (l : List Char) : List Char :=
  removeLitNumGo lit l.length l

/-- `re.sub(r"\s+", " ", l)`: collapse every whitespace run to one blank. -/
def collapseWsGo : Bool → List Char → List Char
  | _, [] => []
  | inRun, c :: rest =>
    if pyWs c then
      if inRun then collapseWsGo true rest else ' ' :: collapseWsGo true rest
    else c :: collapseWsGo false rest

/-- Collapse whitespace runs (the scan starts outside a run). -/
def collapseWhitespace (l : List Char) : List Char := collapseWsGo false l

/-- `_clean_column_names` for one column (edgar_utils.py lines 390-409):
strip, remove `Unnamed: \d+` and `level_\d+` artifacts, collapse
whitespace, replace newline and tab, strip again; an empty, purely numeric,
"nan" or "None" name becomes "Description" for column 0 and `Column_<i>`
otherwise. -/
def cleanColumnName (i : Nat) (col : String) : String :=
  let s0 := pyStrip col
  let s1 := String.mk (removeLitNum "Unnamed: ".toList s0.toList)
  let s2 := String.mk (removeLitNum "level_".toList s1.toList)
  let s3 := String.mk (collapseWhitespace s2.toList)
  let s4 := replaceChar '\t' ' ' (replaceChar '\n' ' ' s3)
  let s := pyStrip s4
  if s = "" || s.toList.all Char.isDigit || s = "nan" || s = "None" then
    (if i = 0 then "Description" else "Column_" ++ toString i)
  else s

/-- `_clean_column_names` over the enumerated column list. -/
def cleanColumnNamesGo : Nat → List String → List String
  | _, [] => []
  | i, c :: cs => cleanColumnName i c :: cleanColumnNamesGo (i + 1) cs

/-- `_clean_column_names` (edgar_utils.py lines 380-411). -/
def cleanColumnNames (cols : List String) : List String := cleanColumnNamesGo 0 cols

/-- The header/boilerplate indicator phrases of `_remove_header_rows`. -/
def headerIndicators : List String :=
  ["year ended", "months ended", "as of", "for the",
   "in millions", "in thousands", "except per share",
   "unaudited", "audited", "consolidated", "see accompanying"]

/-- `" ".join(str(val) for val in row if pd.notna(val))`. -/
def rowJoinedText (r : List Cell) : String := joinSpace (r.filterMap id)

/-- The stripped non-empty string values of a row (`non_empty_values`). -/
def rowNonEmptyVals (r : List Cell) : List String :=
  ((r.filterMap id).map pyStrip).filter (fun s => s ≠ "")

/-- A visual separator row: more than one non-empty value and all of them
equal (`len(set(non_empty_values)) <= 1 and len(non_empty_values) > 1`). -/
def isSeparatorRow (r : List Cell) : Bool :=
  let vals := rowNonEmptyVals r
  decide (vals.dedup.length ≤ 1) && decide (1 < vals.length)

/-- Does the lowercased joined row text contain a header indicator phrase? -/
def hasHeaderIndicator (r : List Cell) : Bool :=
  headerIndicators.any (fun ind => pyIn ind (strLower (rowJoinedText r)))

/-- `_remove_header_rows` (edgar_utils.py lines 413-457): drop separator
rows and rows whose joined text contains a header indicator phrase.  The
year-prefix branch of the source only executes `continue` and removes
nothing. -/
def removeHeaderRows (df : DF) : DF :=
  if dfEmpty df then df
  else ⟨df.headers, df.rows.filter (fun r => !(isSeparatorRow r || hasHeaderIndicator r))⟩

/-- `re.sub(r"[(),]", "", value)`: remove parens and commas. -/
def stripParenCommaChars (s : String) : String :=
  String.mk (s.toList.filter (fun c => !(c == '(' || c == ')' || c == ',')))

/-- `re.sub(r"[$,]", "", value)`: remove dollar signs and commas (decimal
points and minus signs are untouched). -/
def stripDollarCommaChars (s : String) : String :=
  String.mk (s.toList.filter (fun c => !(c == '$' || c == ',')))

/-- `_clean_monetary_value` (edgar_utils.py lines 485-505, identically at
src/edgar_utils.py lines 284-303): the literal values "nan"/"None"/"" map
to ""; a value containing both parens is rewritten to a minus sign plus the
value with parens and commas removed; finally dollar signs and commas are
removed.  (`pd.isna` is false for every string argument.) -/
def cleanMonetaryValue (value : String) : String :=
  if value = "nan" || value = "None" || value = "" then ""
  else
    let v := pyStrip value
    let v2 :=
      if strContainsChar v '(' && strContainsChar v ')' then
        "-" ++ stripParenCommaChars v
      else v
    stripDollarCommaChars v2

/-- The monetary-cleaning loop of `_clean_dataframe` (lines 291-294): each
object-dtype column is rendered through `astype(str)` (NaN becomes "nan")
and mapped through `_clean_monetary_value`; in this embedding every column
holds textual cells, hence is object dtype. -/
def cleanMonetaryCells (df : DF) : DF :=
  ⟨df.headers, df.rows.map (fun r => r.map (fun c => some (cleanMonetaryValue (cellPyStr c))))⟩

/-- `_remove_sparse_rows` (edgar_utils.py lines 459-483): keep rows with at
least `max(2, ncols // 3)` non-NA cells.  An empty-string cell is not NA,
so it counts towards the kept total. -/
def removeSparseRows (df : DF) : DF :=
  if dfEmpty df then df
  else
    let minCells := max 2 (df.headers.length / 3)
    ⟨df.headers, df.rows.filter (fun r => decide (minCells ≤ notnaCount r))⟩

/-- `_clean_dataframe` (edgar_utils.py lines 262-302): the full cleaning
pipeline.  The `to_csv` calls of the source are I/O side effects with no
bearing on the returned frame and are not modelled. -/
def cleanDataframe (df : DF) : Except String DF :=
  if dfEmpty df then Except.ok df
  else
    let df1 := dropNaCols ⟨df.headers, dropNaRowsAll df.rows⟩
    let df2 := consolidateHeaders df1
    match removeDuplicateColumns df2 with
    | Except.error e => Except.error e
    | Except.ok df3 =>
      let df4 : DF := ⟨cleanColumnNames df3.headers, df3.rows⟩
      let df5 := removeHeaderRows df4
      let df6 := cleanMonetaryCells df5
      let df7 : DF := ⟨df6.headers, dropNaRowsAll df6.rows⟩
      Except.ok (removeSparseRows df7)

/-- The manual extraction tail of `_extract_table_data` (edgar_utils.py
lines 246-259) applied to already-collected cell text rows: the first row
becomes the header, the remaining rows the body (string cells throughout). -/
def extractTableRowsManual (rows : List (List String)) : DF :=
  match rows with
  | [] => ⟨[], []⟩
  | h :: rest => ⟨h, rest.map (fun r => r.map (fun s => some s))⟩

/-- Normalization of a table given as rows of cell text: extraction followed
by `_clean_dataframe`. -/
def normalizeTable (rows : List (List String)) : Except String DF :=
  cleanDataframe (extractTableRowsManual rows)

/-- Render a Dataset back as a minimal table: the header row followed by the
data rows as text. -/
def renderMinimal (df : DF) : List (List String) :=
  df.headers :: df.rows.map (fun r => r.map cellPyStr)

/-! ## Theorems -/

/-- C1 counterexample: the cleaning function passes "N/A" and the em dash
through unchanged, while the claim states that both map to the empty
string. -/
theorem cleanMonetaryValue_counterexample :
    cleanMonetaryValue "N/A" = "N/A" ∧ cleanMonetaryValue "—" = "—" ∧
    cleanMonetaryValue "N/A" ≠ "" ∧ cleanMonetaryValue "—" ≠ "" := by decide

/-- C1 (amended): the cleaning function maps ""/"nan"/"None" to the empty
string; a value containing an opening and a closing parenthesis is rewritten
to the stripped digits with parens and commas removed and a minus sign
prefixed; otherwise dollar signs and thousands-separator commas are stripped
while decimal points and minus signs are preserved.  "(1,234)" maps to
"-1234" and "$45,678.90" to "45678.90"; the placeholders "N/A" and "—" are
not special-cased and pass through unchanged. -/
theorem cleanMonetaryValue_spec (v : String) :
    (v = "" ∨ v = "nan" ∨ v = "None" → cleanMonetaryValue v = "") ∧
    (v ≠ "" → v ≠ "nan" → v ≠ "None" →
      (strContainsChar (pyStrip v) '(' && strContainsChar (pyStrip v) ')') = true →
      cleanMonetaryValue v = stripDollarCommaChars ("-" ++ stripParenCommaChars (pyStrip v))) ∧
    (v ≠ "" → v ≠ "nan" → v ≠ "None" →
      (strContainsChar (pyStrip v) '(' && strContainsChar (pyStrip v) ')') = false →
      cleanMonetaryValue v = stripDollarCommaChars (pyStrip v)) ∧
    cleanMonetaryValue "(1,234)" = "-1234" ∧
    cleanMonetaryValue "$45,678.90" = "45678.90" ∧
    cleanMonetaryValue "" = "" ∧ cleanMonetaryValue "nan" = "" ∧
    cleanMonetaryValue "None" = "" := by
  refine ⟨?_, ?_, ?_, by decide, by decide, by decide, by decide, by decide⟩
  · rintro (rfl | rfl | rfl) <;> decide
  · intro h1 h2 h3 h4
    have hc : (decide (v = "nan") || decide (v = "None") || decide (v = "")) = false := by
      simp [h1, h2, h3]
    simp only [cleanMonetaryValue, hc, Bool.false_eq_true, if_false, h4, if_true]
  · intro h1 h2 h3 h4
    have hc : (decide (v = "nan") || decide (v = "None") || decide (v = "")) = false := by
      simp [h1, h2, h3]
    simp only [cleanMonetaryValue, hc, Bool.false_eq_true, if_false, h4]

/-- C1 witness: the amended theorem applied at concrete inputs. -/
theorem cleanMonetaryValue_spec_witness :
    cleanMonetaryValue "nan" = "" ∧
    cleanMonetaryValue "($3,0)" =
      stripDollarCommaChars ("-" ++ stripParenCommaChars (pyStrip "($3,0)")) :=
  ⟨(cleanMonetaryValue_spec "nan").1 (Or.inr (Or.inl rfl)),
   (cleanMonetaryValue_spec "($3,0)").2.1 (by decide) (by decide) (by decide) (by decide)⟩

/-- C6: duplicate column handling is broken in the source.  On the first
repeated (stripped) column name, `_remove_duplicate_columns` evaluates
`df[seen_columns[col_str]]`, indexing the DataFrame by the stored integer
counter 0; a string-labelled frame has no such label, so a KeyError is
raised instead of the documented drop/rename, and the surrounding pipeline
aborts. -/
theorem removeDuplicateColumns_keyerror :
    removeDuplicateColumns ⟨["A", "B", "A"], [[some "1", some "2", some "1"]]⟩
      = Except.error "KeyError" ∧
    cleanDataframe ⟨["A", "B", "A"], [[some "1", some "2", some "1"]]⟩
      = Except.error "KeyError" := ⟨rfl, rfl⟩

/-- When every remaining score is at most the current best, the selection
loop leaves the accumulator unchanged. -/
lemma selectFold_le {α : Type} (score : α → ℚ) :
    ∀ (l : List α) (b : Option α) (s : ℚ), (∀ u ∈ l, score u ≤ s) →
      l.foldl (selectStep score) (b, s) = (b, s) := by
  intro l
  induction l with
  | nil => intro b s _; rfl
  | cons x xs ih =>
    intro b s h
    have hx : score x ≤ s := h x (by simp)
    have hstep : selectStep score (b, s) x = (b, s) := by
      simp only [selectStep]
      rw [if_neg (fun hc => absurd hc.1 (not_lt.mpr hx))]
    rw [List.foldl_cons, hstep]
    exact ih b s (fun u hu => h u (by simp [hu]))

/-- When no score exceeds the 0.3 threshold, the selection loop never
updates its accumulator. -/
lemma selectFold_below {α : Type} (score : α → ℚ) :
    ∀ (l : List α) (acc : Option α × ℚ), (∀ u ∈ l, score u ≤ 3/10) →
      l.foldl (selectStep score) acc = acc := by
  intro l
  induction l with
  | nil => intro acc _; rfl
  | cons x xs ih =>
    intro acc h
    have hx : score x ≤ 3/10 := h x (by simp)
    have hstep : selectStep score acc x = acc := by
      simp only [selectStep]
      rw [if_neg (fun hc => absurd hc.2 (not_lt.mpr hx))]
    rw [List.foldl_cons, hstep]
    exact ih acc (fun u hu => h u (by simp [hu]))

/-- The selection loop run over a list split as strictly-lower-scoring
tables, the target table, and at-most-equal-scoring tables yields the
target with its score, from any accumulator whose best score is below the
target score. -/
lemma selectFold_argmax {α : Type} (score : α → ℚ) (t : α) (post : List α)
    (hthr : 3/10 < score t) (hmax : ∀ u ∈ post, score u ≤ score t) :
    ∀ (pre : List α) (b : Option α) (s : ℚ), s < score t →
      (∀ u ∈ pre, score u < score t) →
      (pre ++ t :: post).foldl (selectStep score) (b, s) = (some t, score t) := by
  intro pre
  induction pre with
  | nil =>
    intro b s hs _
    have hstep : selectStep score (b, s) t = (some t, score t) := by
      simp only [selectStep]
      rw [if_pos ⟨hs, hthr⟩]
    rw [List.nil_append, List.foldl_cons, hstep]
    exact selectFold_le score post (some t) (score t) hmax
  | cons x xs ih =>
    intro b s hs hpre
    have hx : score x < score t := hpre x (by simp)
    rw [List.cons_append, List.foldl_cons]
    by_cases hc : s < score x ∧ 3/10 < score x
    · have hstep : selectStep score (b, s) x = (some x, score x) := by
        simp only [selectStep]; rw [if_pos hc]
      rw [hstep]
      exact ih (some x) (score x) hx (fun u hu => hpre u (by simp [hu]))
    · have hstep : selectStep score (b, s) x = (b, s) := by
        simp only [selectStep]; rw [if_neg hc]
      rw [hstep]
      exact ih b s hs (fun u hu => hpre u (by simp [hu]))

/-- Invariant of the selection loop: a selected table scored above 0.3. -/
lemma selectFold_some_gt {α : Type} (score : α → ℚ) :
    ∀ (l : List α) (b : Option α) (s : ℚ),
      (∀ v, b = some v → 3/10 < score v) →
      ∀ v, (l.foldl (selectStep score) (b, s)).1 = some v → 3/10 < score v := by
  intro l
  induction l with
  | nil => intro b s hb v hv; exact hb v hv
  | cons x xs ih =>
    intro b s hb v hv
    rw [List.foldl_cons] at hv
    by_cases hc : s < score x ∧ 3/10 < score x
    · have hstep : selectStep score (b, s) x = (some x, score x) := by
        simp only [selectStep]; rw [if_pos hc]
      rw [hstep] at hv
      exact ih (some x) (score x)
        (fun w hw => (Option.some_inj.mp hw) ▸ hc.2) v hv
    · have hstep : selectStep score (b, s) x = (b, s) := by
        simp only [selectStep]; rw [if_neg hc]
      rw [hstep] at hv
      exact ih b s hb v hv

/-- A table returned by the selection loop scored strictly above 0.3. -/
lemma selectBestTable_some_gt {α : Type} (score : α → ℚ) (l : List α) (u : α)
    (h : selectBestTable score l = some u) : 3/10 < score u :=
  selectFold_some_gt score l none 0 (fun v hv => absurd hv (by simp)) u h

/-- C3: per category, the loop of `_parse_financial_tables` selects the
table attaining the maximum normalized score, provided that maximum
strictly exceeds the 0.3 threshold, and on a tie the earliest table in
document order wins; when every table scores at most 0.3 the category has
no selected table. -/
theorem selectBestTable_max {α : Type} (score : α → ℚ) (pre post : List α) (t : α)
    (hthr : 3/10 < score t)
    (hfirst : ∀ u ∈ pre, score u < score t)
    (hmax : ∀ u ∈ post, score u ≤ score t) :
    selectBestTable score (pre ++ t :: post) = some t ∧
    ∀ (l : List α), (∀ u ∈ l, score u ≤ 3/10) → selectBestTable score l = none := by
  constructor
  · unfold selectBestTable
    rw [selectFold_argmax score t post hthr hmax pre none 0
      (lt_trans (by norm_num) hthr) hfirst]
  · intro l hl
    unfold selectBestTable
    rw [selectFold_below score l _ hl]

/-- C3 witness: a document with a low-scoring table, the best table, and an
equally-scoring later duplicate; the earliest maximum is selected, and a
document whose only table scores below threshold selects nothing. -/
theorem selectBestTable_max_witness :
    selectBestTable (fun p : String × String => scoreTableRelevance p.1 p.2 ["revenue"])
        [("", ""), ("", "revenue 2023 $1,2"), ("", "revenue 2023 $1,2")]
      = some ("", "revenue 2023 $1,2") ∧
    selectBestTable (fun p : String × String => scoreTableRelevance p.1 p.2 ["revenue"])
        [("", "no keywords here")] = none := by
  have h := selectBestTable_max
    (fun p : String × String => scoreTableRelevance p.1 p.2 ["revenue"])
    [("", "")] [("", "revenue 2023 $1,2")] ("", "revenue 2023 $1,2")
    (by with_unfolding_all decide)
    (by intro u hu; rw [List.mem_singleton.mp hu]; with_unfolding_all decide)
    (by intro u hu; rw [List.mem_singleton.mp hu])
  exact ⟨h.1, h.2 [("", "no keywords here")]
    (by intro u hu; rw [List.mem_singleton.mp hu]; with_unfolding_all decide)⟩

/-- C4: the relevance score is exactly the weighted keyword/pattern formula
normalized by the keyword count, where context hits and table hits count
each keyword at most once; a table whose context and content contain no
category keyword and no money/year pattern scores 0 and is never the
selected table of any document. -/
theorem scoreTableRelevance_spec (context tableText : String) (kws : List String)
    (_hk : kws ≠ []) :
    scoreTableRelevance context tableText kws =
      ((kws.countP (fun k => pyIn k (strLower context)) : ℚ) * (4/10)
        + (kws.countP (fun k => pyIn k (strLower tableText)) : ℚ) * (4/10)
        + (if hasMoneyPattern (strLower tableText).toList then (1:ℚ) else 0) * (1/10)
        + (if hasYearPattern (strLower tableText).toList then (1:ℚ) else 0) * (1/10))
        / (kws.length : ℚ) ∧
    ((∀ k ∈ kws, pyIn k (strLower context) = false) →
     (∀ k ∈ kws, pyIn k (strLower tableText) = false) →
     hasMoneyPattern (strLower tableText).toList = false →
     hasYearPattern (strLower tableText).toList = false →
     scoreTableRelevance context tableText kws = 0 ∧
     ∀ (tables : List (String × String)),
       selectBestTable (fun p => scoreTableRelevance p.1 p.2 kws) tables ≠
         some (context, tableText)) := by
  have hform : scoreTableRelevance context tableText kws =
      ((kws.countP (fun k => pyIn k (strLower context)) : ℚ) * (4/10)
        + (kws.countP (fun k => pyIn k (strLower tableText)) : ℚ) * (4/10)
        + (if hasMoneyPattern (strLower tableText).toList then (1:ℚ) else 0) * (1/10)
        + (if hasYearPattern (strLower tableText).toList then (1:ℚ) else 0) * (1/10))
        / (kws.length : ℚ) := rfl
  refine ⟨hform, ?_⟩
  intro h1 h2 h3 h4
  have hc1 : kws.countP (fun k => pyIn k (strLower context)) = 0 :=
    List.countP_eq_zero.mpr (by simpa using h1)
  have hc2 : kws.countP (fun k => pyIn k (strLower tableText)) = 0 :=
    List.countP_eq_zero.mpr (by simpa using h2)
  have hzero : scoreTableRelevance context tableText kws = 0 := by
    rw [hform, hc1, hc2, h3, h4]
    norm_num
  refine ⟨hzero, ?_⟩
  intro tables hsel
  have hgt := selectBestTable_some_gt _ tables _ hsel
  simp only at hgt
  rw [hzero] at hgt
  norm_num at hgt

/-- C4 witness: a keyword-free table scores 0 for a one-keyword category. -/
theorem scoreTableRelevance_spec_witness :
    scoreTableRelevance "abc" "xyz" ["revenue"] = 0 :=
  ((scoreTableRelevance_spec "abc" "xyz" ["revenue"] (by decide)).2
    (by decide) (by decide) (by decide) (by decide)).1

/-- When the substring test fails, so does the index search. -/
lemma findIdx_none_of_strIn_false :
    ∀ (needle l : List Char), strIn needle l = false → findIdx needle l = none := by
  intro needle l
  induction l with
  | nil =>
    intro h
    simp only [strIn] at h
    simp [findIdx, h]
  | cons c rest ih =>
    intro h
    simp only [strIn, Bool.or_eq_false_iff] at h
    simp [findIdx, h.1, ih h.2]

/-- A non-empty string is not a substring of the empty string. -/
lemma pyIn_empty_of_ne (k : String) (hk : k ≠ "") : pyIn k "" = false := by
  cases k with
  | mk data =>
    cases data with
    | nil => exact absurd rfl hk
    | cons c cs => rfl

/-- C9: for every table whose serialization is not a substring of the
serialized document, the context computation returns the empty string
(rather than raising), and the relevance score over the empty context
reduces to the table-internal signals alone: table keyword hits, the money
pattern, and the year pattern. -/
theorem getTableContext_fallback (getText : String → String)
    (tableHtml docHtml : String) (contextChars : Nat)
    (h : strIn tableHtml.toList docHtml.toList = false) :
    getTableContext getText tableHtml docHtml contextChars = "" ∧
    ∀ (tableText : String) (kws : List String), (∀ k ∈ kws, k ≠ "") →
      scoreTableRelevance "" tableText kws =
        ((kws.countP (fun k => pyIn k (strLower tableText)) : ℚ) * (4/10)
          + (if hasMoneyPattern (strLower tableText).toList then (1:ℚ) else 0) * (1/10)
          + (if hasYearPattern (strLower tableText).toList then (1:ℚ) else 0) * (1/10))
          / (kws.length : ℚ) := by
  constructor
  · unfold getTableContext
    rw [findIdx_none_of_strIn_false tableHtml.toList docHtml.toList h]
  · intro tableText kws hkws
    have hlower : strLower "" = "" := rfl
    have hc : kws.countP (fun k => pyIn k (strLower "")) = 0 := by
      rw [hlower]
      exact List.countP_eq_zero.mpr
        (by simpa using fun k hk => pyIn_empty_of_ne k (hkws k hk))
    have hform : scoreTableRelevance "" tableText kws =
        ((kws.countP (fun k => pyIn k (strLower "")) : ℚ) * (4/10)
          + (kws.countP (fun k => pyIn k (strLower tableText)) : ℚ) * (4/10)
          + (if hasMoneyPattern (strLower tableText).toList then (1:ℚ) else 0) * (1/10)
          + (if hasYearPattern (strLower tableText).toList then (1:ℚ) else 0) * (1/10))
          / (kws.length : ℚ) := rfl
    rw [hform, hc]
    norm_num

/-- C9 witness: an absent table serialization yields the empty context, and
a concrete table then scores from its own text alone. -/
theorem getTableContext_fallback_witness :
    getTableContext id "zzz" "ab" 1000 = "" ∧
    scoreTableRelevance "" "net income 2023" ["net income"] = 1/2 := by
  constructor
  · exact (getTableContext_fallback id "zzz" "ab" 1000 (by decide)).1
  · have h2 := (getTableContext_fallback id "zzz" "ab" 1000 (by decide)).2
      "net income 2023" ["net income"] (by decide)
    rw [h2]
    with_unfolding_all decide

/-- C2 counterexample: a table is selected for every category (constant
score 1 exceeds the threshold), extraction yields an empty DataFrame, and
the result mapping is empty: the category key is absent, not bound to an
explicit empty Dataset as the claim states. -/
theorem parseCats_empty_counterexample :
    selectBestTable (fun _ : Nat => (1 : ℚ)) [0] = some 0 ∧
    parseCats [0] (fun _ (_ : Nat) => (1 : ℚ)) (fun _ => Except.ok ⟨[], []⟩)
      financialCategories [] = Except.ok [] := by
  constructor
  · with_unfolding_all rfl
  · with_unfolding_all rfl

/-- C2 (amended): when a table is selected for a category but extraction
yields an empty DataFrame, the category outcome is `none` — the category
key is omitted from the results dict — which is the same representation as
when no table scores above the threshold; an empty Dataset is never stored. -/
theorem categoryResultE_empty_absent {α : Type} (tables : List α) (score : α → ℚ)
    (extract : α → Except String DF) (t : α) (df : DF)
    (hsel : selectBestTable score tables = some t)
    (hext : extract t = Except.ok df) (hempty : dfEmpty df = true) :
    categoryResultE tables score extract = Except.ok none ∧
    ∀ (tables2 : List α) (score2 : α → ℚ), selectBestTable score2 tables2 = none →
      categoryResultE tables2 score2 extract = Except.ok none := by
  constructor
  · unfold categoryResultE
    rw [hsel]
    simp [hext, Except.map, hempty]
  · intro tables2 score2 h2
    unfold categoryResultE
    rw [h2]

/-- C2 witness: the amended theorem applied at a concrete selection with an
empty extraction. -/
theorem categoryResultE_empty_absent_witness :
    categoryResultE [0] (fun _ : Nat => (1 : ℚ)) (fun _ => Except.ok ⟨[], []⟩)
      = Except.ok none :=
  (categoryResultE_empty_absent [0] (fun _ : Nat => (1 : ℚ))
    (fun _ => Except.ok ⟨[], []⟩) 0 ⟨[], []⟩
    (by with_unfolding_all rfl) rfl rfl).1

/-- Keys accumulated by the category loop come from the category list or
from the initial accumulator. -/
lemma parseCats_keys {α : Type} (tables : List α) (scoreOf : String → α → ℚ)
    (extract : α → Except String DF) :
    ∀ (cats : List String) (acc r : List (String × DF)),
      parseCats tables scoreOf extract cats acc = Except.ok r →
      ∀ p ∈ r, p.1 ∈ cats ∨ p ∈ acc := by
  intro cats
  induction cats with
  | nil =>
    intro acc r h p hp
    simp only [parseCats] at h
    cases h
    exact Or.inr hp
  | cons c cs ih =>
    intro acc r h p hp
    simp only [parseCats] at h
    cases hres : categoryResultE tables (scoreOf c) extract with
    | error e => rw [hres] at h; cases h
    | ok o =>
      rw [hres] at h
      cases o with
      | none =>
        rcases ih acc r h p hp with h1 | h2
        · exact Or.inl (List.mem_cons_of_mem c h1)
        · exact Or.inr h2
      | some df =>
        rcases ih (acc ++ [(c, df)]) r h p hp with h1 | h2
        · exact Or.inl (List.mem_cons_of_mem c h1)
        · rcases List.mem_append.mp h2 with h3 | h4
          · exact Or.inr h3
          · rw [List.mem_singleton.mp h4]
            exact Or.inl (List.mem_cons_self c cs)

/-- An exception raised for a category that occurs in the remaining
category list aborts the whole loop with an exception. -/
lemma parseCats_error_of_mem {α : Type} (tables : List α)
    (scoreOf : String → α → ℚ) (extract : α → Except String DF)
    (cat : String) (e : String)
    (hc : categoryResultE tables (scoreOf cat) extract = Except.error e) :
    ∀ (cats : List String) (acc : List (String × DF)), cat ∈ cats →
      ∃ e2, parseCats tables scoreOf extract cats acc = Except.error e2 := by
  intro cats
  induction cats with
  | nil => intro acc h; exact absurd h (List.not_mem_nil cat)
  | cons c cs ih =>
    intro acc hmem
    simp only [parseCats]
    by_cases hcc : c = cat
    · subst hcc
      exact ⟨e, by rw [hc]⟩
    · have hcs : cat ∈ cs := by
        rcases List.mem_cons.mp hmem with h | h
        · exact absurd h.symm hcc
        · exact h
      cases hres : categoryResultE tables (scoreOf c) extract with
      | error e3 => exact ⟨e3, rfl⟩
      | ok o =>
        cases o with
        | none => exact ih acc hcs
        | some df => exact ih (acc ++ [(c, df)]) hcs

/-- C10: the public entry point returns the empty mapping whenever parsing
raises, and likewise whenever extraction raises for a selected table of any
category (the caught-exception path); on success it returns a mapping (an
ordered key/value collection, not the 3-tuple of its type annotation) whose
keys all belong to income_statement / balance_sheet / cash_flow. -/
theorem parse_financial_tables_spec {α : Type} (scoreOf : String → α → ℚ)
    (extract : α → Except String DF) :
    (∀ (e : String), parse_financial_tables (Except.error e) scoreOf extract = []) ∧
    (∀ (tables : List α) (cat : String) (t : α) (e : String),
       cat ∈ financialCategories →
       selectBestTable (scoreOf cat) tables = some t →
       extract t = Except.error e →
       parse_financial_tables (Except.ok tables) scoreOf extract = []) ∧
    (∀ (parsed : Except String (List α)) (p : String × DF),
       p ∈ parse_financial_tables parsed scoreOf extract →
       p.1 ∈ financialCategories) := by
  refine ⟨?_, ?_, ?_⟩
  · intro e; rfl
  · intro tables cat t e hcat hsel hext2
    have hc : categoryResultE tables (scoreOf cat) extract = Except.error e := by
      unfold categoryResultE
      rw [hsel]
      simp [hext2, Except.map]
    obtain ⟨e2, he2⟩ :=
      parseCats_error_of_mem tables scoreOf extract cat e hc financialCategories [] hcat
    unfold parse_financial_tables
    rw [show (Except.ok tables : Except String (List α)).bind
        (fun tbs => parseCats tbs scoreOf extract financialCategories [])
      = Except.error e2 from he2]
  · intro parsed p hp
    unfold parse_financial_tables at hp
    cases parsed with
    | error e => simp [Except.bind] at hp
    | ok tables =>
      cases hb : parseCats tables scoreOf extract financialCategories [] with
      | error e =>
        rw [show (Except.ok tables : Except String (List α)).bind
            (fun tbs => parseCats tbs scoreOf extract financialCategories [])
          = Except.error e from hb] at hp
        simp at hp
      | ok r =>
        rw [show (Except.ok tables : Except String (List α)).bind
            (fun tbs => parseCats tbs scoreOf extract financialCategories [])
          = Except.ok r from hb] at hp
        rcases parseCats_keys tables scoreOf extract financialCategories [] r hb p hp
          with h1 | h2
        · exact h1
        · simp at h2

/-- C10 witness: a successful run stores the income-statement key, which is
one of the three categories, and an extraction error after a concrete
selection yields the empty mapping. -/
theorem parse_financial_tables_spec_witness :
    ("income_statement", (⟨["A"], [[some "1"]]⟩ : DF)).1 ∈ financialCategories ∧
    parse_financial_tables (Except.ok [0]) (fun _ (_ : Nat) => (1 : ℚ))
      (fun _ => Except.error "boom") = [] := by
  constructor
  · refine (parse_financial_tables_spec (fun _ (_ : Nat) => (1 : ℚ))
      (fun _ => Except.ok ⟨["A"], [[some "1"]]⟩)).2.2 (Except.ok [0])
      ("income_statement", ⟨["A"], [[some "1"]]⟩) ?_
    with_unfolding_all decide
  · exact (parse_financial_tables_spec (fun _ (_ : Nat) => (1 : ℚ))
      (fun _ => Except.error "boom")).2.1 [0] "income_statement" 0 "boom"
      (by decide) (by with_unfolding_all decide) rfl

/-- C5 counterexample: in a 6-column frame of string cells, a row with
exactly 1 non-empty text cell (and 5 empty-string cells) is kept by the
sparsity filter, because pandas `notna` counts an empty string as present;
the claim states such a row is dropped. -/
theorem removeSparseRows_counterexample :
    removeSparseRows ⟨["c1", "c2", "c3", "c4", "c5", "c6"],
        [[some "5", some "", some "", some "", some "", some ""]]⟩
      = ⟨["c1", "c2", "c3", "c4", "c5", "c6"],
        [[some "5", some "", some "", some "", some "", some ""]]⟩ ∧
    nonEmptyCellCount [some "5", some "", some "", some "", some "", some ""] = 1 ∧
    (1 : Nat) < max 2 (6 / 3) := by decide

/-- C5 (amended): the pipeline drops every remaining row all of whose cells
are missing (NA), then drops every row whose count of non-NA cells is
strictly below `max(2, ncols // 3)`; an empty-string cell is not NA and
counts towards the kept total.  In a 6-column frame a row with exactly 1
non-NA cell is dropped and a row with exactly 2 non-NA cells is kept. -/
theorem removeSparseRows_spec (df : DF) (h : dfEmpty df = false) :
    (removeSparseRows df).headers = df.headers ∧
    (removeSparseRows df).rows =
      df.rows.filter (fun r => decide (max 2 (df.headers.length / 3) ≤ notnaCount r)) ∧
    (∀ r ∈ (removeSparseRows df).rows, max 2 (df.headers.length / 3) ≤ notnaCount r) ∧
    (∀ rows : List (List Cell), ∀ r ∈ dropNaRowsAll rows, rowAllNa r = false) ∧
    removeSparseRows ⟨["c1", "c2", "c3", "c4", "c5", "c6"],
        [[some "5", none, none, none, none, none],
         [some "1", some "2", none, none, none, none]]⟩
      = ⟨["c1", "c2", "c3", "c4", "c5", "c6"],
        [[some "1", some "2", none, none, none, none]]⟩ := by
  have hrw : removeSparseRows df =
      ⟨df.headers, df.rows.filter
        (fun r => decide (max 2 (df.headers.length / 3) ≤ notnaCount r))⟩ := by
    unfold removeSparseRows
    rw [h]
    simp
  refine ⟨by rw [hrw], by rw [hrw], ?_, ?_, by decide⟩
  · intro r hr
    rw [hrw] at hr
    exact of_decide_eq_true (List.mem_filter.mp hr).2
  · intro rows r hr
    have := (List.mem_filter.mp hr).2
    simpa using this

/-- C5 witness: the amended theorem applied at a concrete 6-column frame. -/
theorem removeSparseRows_spec_witness :
    (removeSparseRows ⟨["c1", "c2", "c3", "c4", "c5", "c6"],
        [[some "5", none, none, none, none, none],
         [some "1", some "2", none, none, none, none]]⟩).rows
      = [[some "1", some "2", none, none, none, none]] := by
  rw [(removeSparseRows_spec ⟨["c1", "c2", "c3", "c4", "c5", "c6"],
      [[some "5", none, none, none, none, none],
       [some "1", some "2", none, none, none, none]]⟩ (by decide)).2.1]
  decide

/-- C7 counterexample: the first row has 0 non-empty text cells and the
second has 3, so the claim requires the header to be replaced and both rows
dropped (result body of 1 row); but the source counts `notna` cells — here
3 and 3 — so the frame is left unchanged with all 3 rows. -/
theorem consolidateHeaders_counterexample :
    consolidateHeaders ⟨["h1", "h2", "h3"],
        [[some "", some "", some ""], [some "a", some "b", some "c"],
         [some "x", some "y", some "z"]]⟩
      = ⟨["h1", "h2", "h3"],
        [[some "", some "", some ""], [some "a", some "b", some "c"],
         [some "x", some "y", some "z"]]⟩ ∧
    nonEmptyCellCount [some "", some "", some ""] = 0 ∧
    nonEmptyCellCount [some "a", some "b", some "c"] = 3 ∧
    (consolidateHeaders ⟨["h1", "h2", "h3"],
        [[some "", some "", some ""], [some "a", some "b", some "c"],
         [some "x", some "y", some "z"]]⟩).rows.length = 3 := by decide

/-- C7 (amended): for a frame with at least two rows, exactly when the first
row has at most 2 non-NA cells and the second row has strictly more non-NA
cells (empty-string cells count as present), the header is replaced by the
per-column combination of the two rows and both rows are removed from the
body; otherwise, and for frames with fewer than two rows, the frame is left
unchanged.  The per-column combination joins two non-empty differing texts
with a single blank, else takes whichever text is non-empty, else
synthesizes `Column_<index>`. -/
theorem consolidateHeaders_spec (df : DF) (r1 r2 : List Cell)
    (rest : List (List Cell)) (hrows : df.rows = r1 :: r2 :: rest) :
    (notnaCount r1 ≤ 2 → notnaCount r1 < notnaCount r2 →
      consolidateHeaders df = ⟨combineHeaders r1 r2, rest⟩) ∧
    (¬(notnaCount r1 ≤ 2 ∧ notnaCount r1 < notnaCount r2) →
      consolidateHeaders df = df) ∧
    (∀ df2 : DF, df2.rows.length < 2 → consolidateHeaders df2 = df2) ∧
    (∀ (i : Nat) (c1 c2 : Cell),
      (pyStrip (cellStrOrEmpty c1) ≠ "" → pyStrip (cellStrOrEmpty c2) ≠ "" →
        pyStrip (cellStrOrEmpty c1) ≠ pyStrip (cellStrOrEmpty c2) →
        combineHeaderCell i c1 c2 =
          pyStrip (cellStrOrEmpty c1) ++ " " ++ pyStrip (cellStrOrEmpty c2)) ∧
      (pyStrip (cellStrOrEmpty c2) ≠ "" →
        (pyStrip (cellStrOrEmpty c1) = "" ∨
         pyStrip (cellStrOrEmpty c1) = pyStrip (cellStrOrEmpty c2)) →
        combineHeaderCell i c1 c2 = pyStrip (cellStrOrEmpty c2)) ∧
      (pyStrip (cellStrOrEmpty c2) = "" → pyStrip (cellStrOrEmpty c1) ≠ "" →
        combineHeaderCell i c1 c2 = pyStrip (cellStrOrEmpty c1)) ∧
      (pyStrip (cellStrOrEmpty c1) = "" → pyStrip (cellStrOrEmpty c2) = "" →
        combineHeaderCell i c1 c2 = "Column_" ++ toString i)) := by
  have hmatch : consolidateHeaders df =
      if notnaCount r1 ≤ 2 ∧ notnaCount r1 < notnaCount r2 then
        ⟨combineHeaders r1 r2, rest⟩
      else df := by
    unfold consolidateHeaders
    rw [hrows]
  refine ⟨?_, ?_, ?_, ?_⟩
  · intro h1 h2
    rw [hmatch, if_pos ⟨h1, h2⟩]
  · intro hneg
    rw [hmatch, if_neg hneg]
  · intro df2 hlen
    unfold consolidateHeaders
    cases hr : df2.rows with
    | nil => rfl
    | cons a tl =>
      cases tl with
      | nil => rfl
      | cons b tl2 => rw [hr] at hlen; simp at hlen; omega
  · intro i c1 c2
    unfold combineHeaderCell
    set s1 := pyStrip (cellStrOrEmpty c1) with hs1
    set s2 := pyStrip (cellStrOrEmpty c2) with hs2
    refine ⟨?_, ?_, ?_, ?_⟩
    · intro h1 h2 h3
      rw [if_pos ⟨h1, h2, h3⟩]
    · intro h2 h1
      rcases h1 with h1 | h1
      · rw [if_neg (fun hc => absurd h1 hc.1), if_pos h2]
      · rw [if_neg (fun hc => absurd h1 hc.2.2), if_pos h2]
    · intro h2 h1
      rw [if_neg (fun hc => absurd h2 hc.2.1), if_neg (fun hc => absurd h2 hc),
        if_pos h1]
    · intro h1 h2
      rw [if_neg (fun hc => absurd h1 hc.1), if_neg (fun hc => absurd h2 hc),
        if_neg (fun hc => absurd h1 hc)]

/-- C7 witness: a frame whose first row has 1 non-NA cell and second row 3
non-NA cells is consolidated: combined header, both rows removed. -/
theorem consolidateHeaders_spec_witness :
    consolidateHeaders ⟨["h1", "h2", "h3"],
        [[none, none, some "A"], [some "x", some "y", some "z"],
         [some "1", some "2", some "3"]]⟩
      = ⟨["x", "y", "A z"], [[some "1", some "2", some "3"]]⟩ := by
  rw [(consolidateHeaders_spec ⟨["h1", "h2", "h3"],
      [[none, none, some "A"], [some "x", some "y", some "z"],
       [some "1", some "2", some "3"]]⟩
      [none, none, some "A"] [some "x", some "y", some "z"]
      [[some "1", some "2", some "3"]] rfl).1 (by decide) (by decide)]
  decide

/-- Index filtering keeps a list intact when every index in range is kept. -/
lemma keepIdxGo_all {β : Type} (keep : Nat → Bool) :
    ∀ (l : List β) (i : Nat), (∀ j, i ≤ j → j < i + l.length → keep j = true) →
      keepIdxGo keep i l = l := by
  intro l
  induction l with
  | nil => intro i _; rfl
  | cons x xs ih =>
    intro i h
    have hx : keep i = true := h i le_rfl (by simp)
    simp only [keepIdxGo, hx, if_true]
    rw [ih (i + 1) (fun j hj1 hj2 => h j (by omega) (by simp at hj2 ⊢; omega))]

/-- Index filtering from position 0 keeps a list intact when every index
below the length is kept. -/
lemma keepIdx_all {β : Type} (keep : Nat → Bool) (l : List β)
    (h : ∀ j, j < l.length → keep j = true) : keepIdx keep l = l :=
  keepIdxGo_all keep l 0 (fun j _ hj => h j (by omega))

/-- The duplicate-name scan succeeds exactly on pairwise-distinct stripped
names that avoid the seen set, returning the stripped names in order. -/
lemma dedupColsGo_ok :
    ∀ (l : List String) (seen acc : List String),
      (l.map pyStrip).Nodup → (∀ s ∈ l.map pyStrip, s ∉ seen) →
      dedupColsGo l seen acc = Except.ok (acc.reverse ++ l.map pyStrip) := by
  intro l
  induction l with
  | nil => intro seen acc _ _; simp [dedupColsGo]
  | cons c cs ih =>
    intro seen acc hnd hseen
    have hnotin : pyStrip c ∉ seen := hseen (pyStrip c) (by simp)
    have hnd2 : (cs.map pyStrip).Nodup := (List.nodup_cons.mp (by simpa using hnd)).2
    have hhd : pyStrip c ∉ cs.map pyStrip := (List.nodup_cons.mp (by simpa using hnd)).1
    simp only [dedupColsGo]
    rw [if_neg hnotin]
    rw [ih (pyStrip c :: seen) (pyStrip c :: acc) hnd2 ?_]
    · simp
    · intro s hs
      simp only [List.mem_cons]
      rintro (rfl | hmem)
      · exact hhd hs
      · exact hseen s (by simp [hs]) hmem

/-- Header cleanup preserves the number of columns. -/
lemma cleanColumnNamesGo_length :
    ∀ (l : List String) (i : Nat), (cleanColumnNamesGo i l).length = l.length := by
  intro l
  induction l with
  | nil => intro i; rfl
  | cons c cs ih => intro i; simp [cleanColumnNamesGo, ih]

/-- Header/separator row removal does not touch the column labels. -/
lemma removeHeaderRows_headers (df : DF) :
    (removeHeaderRows df).headers = df.headers := by
  unfold removeHeaderRows
  by_cases h : dfEmpty df = true <;> simp [h]

/-- The sparsity filter does not touch the column labels. -/
lemma removeSparseRows_headers (df : DF) :
    (removeSparseRows df).headers = df.headers := by
  unfold removeSparseRows
  by_cases h : dfEmpty df = true <;> simp [h]

/-- Header consolidation leaves a frame unchanged when no leading pair of
rows satisfies the trigger counts. -/
lemma consolidateHeaders_eq_of_counts (df : DF)
    (h : ∀ r1 r2 rest, df.rows = r1 :: r2 :: rest →
      ¬(notnaCount r1 ≤ 2 ∧ notnaCount r1 < notnaCount r2)) :
    consolidateHeaders df = df := by
  unfold consolidateHeaders
  cases hr : df.rows with
  | nil => rfl
  | cons a tl =>
    cases tl with
    | nil => rfl
    | cons b tl2 =>
      show (if notnaCount a ≤ 2 ∧ notnaCount a < notnaCount b then
        ({ headers := combineHeaders a b, rows := tl2 } : DF) else df) = df
      rw [if_neg (h a b tl2 hr)]

/-- A row of rendered text cells counts as fully populated for `notna`. -/
lemma notnaCount_map_some (r : List Cell) :
    notnaCount (r.map (fun c => some (cellPyStr c))) = r.length := by
  unfold notnaCount
  rw [List.countP_map]
  have : ((fun c : Cell => c.isSome) ∘ (fun c : Cell => some (cellPyStr c)))
      = fun _ => true := funext (fun c => rfl)
  rw [this, List.countP_true]

/-- C8 counterexample: normalizing a concrete table yields 2 data rows, one
of which cleans "year, ended" to "year ended"; rendering the result back as
a minimal table and normalizing again drops that row (it now matches the
header-indicator phrase), leaving 1 row — re-running normalize shrank the
row count, contradicting the claim. -/
theorem normalize_rerun_counterexample :
    normalizeTable [["Description", "Amount"], ["year, ended", "2"], ["Sales", "3"]]
      = Except.ok ⟨["Description", "Amount"],
          [[some "year ended", some "2"], [some "Sales", some "3"]]⟩ ∧
    renderMinimal ⟨["Description", "Amount"],
          [[some "year ended", some "2"], [some "Sales", some "3"]]⟩
      = [["Description", "Amount"], ["year ended", "2"], ["Sales", "3"]] ∧
    normalizeTable [["Description", "Amount"], ["year ended", "2"], ["Sales", "3"]]
      = Except.ok ⟨["Description", "Amount"], [[some "Sales", some "3"]]⟩ ∧
    1 < 2 := ⟨rfl, rfl, rfl, by decide⟩

/-- C8 (amended): re-running normalize on the rendered output of a
rectangular dataset with at least one row and column succeeds and preserves
the column count, provided the stripped headers are pairwise distinct and
none carries the internal `__REMOVE__` marker prefix; the row count,
however, may strictly decrease (see the counterexample: monetary cleaning
can produce text that newly matches a header-indicator phrase). -/
theorem normalize_rerun_preserves_columns (D : DF)
    (hrect : ∀ r ∈ D.rows, r.length = D.headers.length)
    (hhead : D.headers ≠ []) (hrows : D.rows ≠ [])
    (hdup : (D.headers.map pyStrip).Nodup)
    (hrem : ∀ s ∈ D.headers,
      ("__REMOVE__".toList.isPrefixOf (pyStrip s).toList) = false) :
    ∃ D2 : DF, normalizeTable (renderMinimal D) = Except.ok D2 ∧
      D2.headers.length = D.headers.length := by
  set rows1 := D.rows.map (fun r => r.map (fun c => some (cellPyStr c))) with hrows1def
  have hncols : 0 < D.headers.length := List.length_pos.mpr hhead
  have hrows1ne : rows1 ≠ [] := by
    rw [hrows1def]
    intro hc
    exact hrows (List.map_eq_nil.mp hc)
  have hshape : ∀ w ∈ rows1, ∃ r ∈ D.rows, w = r.map (fun c => some (cellPyStr c)) := by
    intro w hw
    rcases List.mem_map.mp hw with ⟨r, hr, rfl⟩
    exact ⟨r, hr, rfl⟩
  have hrowlen : ∀ w ∈ rows1, w.length = D.headers.length := by
    intro w hw
    rcases hshape w hw with ⟨r, hr, rfl⟩
    rw [List.length_map]
    exact hrect r hr
  have hext : extractTableRowsManual (renderMinimal D) = ⟨D.headers, rows1⟩ := by
    simp only [renderMinimal, extractTableRowsManual, List.map_map, hrows1def]
    congr 1
    exact List.map_congr_left (fun r _ => by rw [Function.comp_apply, List.map_map]; rfl)
  have hallna : ∀ w ∈ rows1, rowAllNa w = false := by
    intro w hw
    rcases hshape w hw with ⟨r, hr, rfl⟩
    cases hrc : r with
    | nil =>
      have := hrowlen _ hw
      rw [hrc] at this
      simp at this
      omega
    | cons c cs => simp [rowAllNa]
  have h1 : dropNaRowsAll rows1 = rows1 :=
    List.filter_eq_self.mpr (fun w hw => by rw [hallna w hw]; rfl)
  have hcolna : ∀ j, j < D.headers.length → colAllNa rows1 j = false := by
    intro j hj
    cases hr0 : D.rows with
    | nil => exact absurd hr0 hrows
    | cons r0 rtl =>
      have hlen : r0.length = D.headers.length := hrect r0 (by rw [hr0]; simp)
      have hjr : j < r0.length := by omega
      have hget : (r0.map (fun c => some (cellPyStr c))).get? j
          = some (some (cellPyStr (r0.get ⟨j, hjr⟩))) := by
        rw [List.get?_map, List.get?_eq_get hjr]
        rfl
      unfold colAllNa
      rw [hrows1def, hr0]
      simp only [List.map_cons, List.all_cons]
      rw [hget]
      simp
  have hkeepC : ∀ j, j < D.headers.length → (!(colAllNa rows1 j)) = true := by
    intro j hj
    rw [hcolna j hj]
    rfl
  have h2 : dropNaCols ⟨D.headers, rows1⟩ = ⟨D.headers, rows1⟩ := by
    unfold dropNaCols
    simp only []
    congr 1
    · exact keepIdx_all _ D.headers hkeepC
    · rw [List.map_congr_left (fun w hw =>
        keepIdx_all _ w (fun j hj => hkeepC j (by rw [← hrowlen w hw]; exact hj)))]
      exact List.map_id rows1
  have h3 : consolidateHeaders ⟨D.headers, rows1⟩ = ⟨D.headers, rows1⟩ := by
    apply consolidateHeaders_eq_of_counts
    intro a b rest2 hr
    have hr2 : rows1 = a :: b :: rest2 := hr
    have ha : a ∈ rows1 := by rw [hr2]; simp
    have hb : b ∈ rows1 := by rw [hr2]; simp
    rcases hshape a ha with ⟨ra, _, rfl⟩
    rcases hshape b hb with ⟨rb, _, rfl⟩
    rw [notnaCount_map_some, notnaCount_map_some]
    have hla : ra.length = D.headers.length := by
      rw [← List.length_map ra (fun c => some (cellPyStr c))]
      exact hrowlen _ ha
    have hlb : rb.length = D.headers.length := by
      rw [← List.length_map rb (fun c => some (cellPyStr c))]
      exact hrowlen _ hb
    rintro ⟨_, hlt⟩
    rw [hla, hlb] at hlt
    exact lt_irrefl _ hlt
  have hdups : dedupColsGo D.headers [] [] = Except.ok (D.headers.map pyStrip) := by
    have := dedupColsGo_ok D.headers [] [] hdup (fun s _ hmem => List.not_mem_nil s hmem)
    simpa using this
  have hkeepR : ∀ j, j < (D.headers.map pyStrip).length →
      (!("__REMOVE__".toList.isPrefixOf
        (((D.headers.map pyStrip).get? j).getD "").toList)) = true := by
    intro j hj
    rw [List.length_map] at hj
    rw [List.get?_map, List.get?_eq_get hj]
    show (!("__REMOVE__".toList.isPrefixOf
      (pyStrip (D.headers.get ⟨j, hj⟩)).toList)) = true
    rw [hrem (D.headers.get ⟨j, hj⟩) (List.get_mem D.headers j hj)]
    rfl
  have h4 : removeDuplicateColumns ⟨D.headers, rows1⟩
      = Except.ok ⟨D.headers.map pyStrip, rows1⟩ := by
    unfold removeDuplicateColumns
    simp only []
    rw [hdups]
    simp only []
    congr 1
    congr 1
    · exact keepIdx_all _ (D.headers.map pyStrip) hkeepR
    · rw [List.map_congr_left (fun w hw =>
        keepIdx_all _ w (fun j hj => hkeepR j
          (by rw [List.length_map, ← hrowlen w hw]; exact hj)))]
      exact List.map_id rows1
  have hempty1 : dfEmpty ⟨D.headers, rows1⟩ = false := by
    unfold dfEmpty
    cases hre : rows1 with
    | nil => exact absurd hre hrows1ne
    | cons w ws =>
      cases hh : D.headers with
      | nil => exact absurd hh hhead
      | cons a tl => rfl
  refine ⟨removeSparseRows
      ⟨(cleanMonetaryCells (removeHeaderRows
          ⟨cleanColumnNames (D.headers.map pyStrip), rows1⟩)).headers,
        dropNaRowsAll (cleanMonetaryCells (removeHeaderRows
          ⟨cleanColumnNames (D.headers.map pyStrip), rows1⟩)).rows⟩, ?_, ?_⟩
  · unfold normalizeTable
    rw [hext]
    unfold cleanDataframe
    rw [hempty1]
    simp only [Bool.false_eq_true, if_false]
    rw [h1, h2, h3, h4]
  · rw [removeSparseRows_headers]
    rw [show (cleanMonetaryCells (removeHeaderRows
        ⟨cleanColumnNames (D.headers.map pyStrip), rows1⟩)).headers
      = (removeHeaderRows ⟨cleanColumnNames (D.headers.map pyStrip), rows1⟩).headers
      from rfl]
    rw [removeHeaderRows_headers]
    show (cleanColumnNames (D.headers.map pyStrip)).length = D.headers.length
    unfold cleanColumnNames
    rw [cleanColumnNamesGo_length, List.length_map]

/-- C8 witness: the amended theorem applied at a concrete normalized
dataset. -/
theorem normalize_rerun_preserves_columns_witness :
    ∃ D2 : DF, normalizeTable (renderMinimal
        ⟨["Description", "Amount"], [[some "Sales", some "3"]]⟩)
      = Except.ok D2 ∧ D2.headers.length = 2 := by
  have h := normalize_rerun_preserves_columns
    ⟨["Description", "Amount"], [[some "Sales", some "3"]]⟩
    (by intro r hr; rw [List.mem_singleton.mp hr]; rfl)
    (by decide) (by decide) (by decide) (by decide)
  exact h

end SecExtract
